import Mathlib

/-!
Shallow embedding of the ART-Pi 2 smart-lock firmware core (main.c, key.c):
the passcode comparison routine `string_chek`, the key-process thread's
edge detection and entry-buffer state machine, and the LCD refresh thread's
change-detection step.  Machine `u8` values are modelled as `Nat`; the
bitwise AND/XOR of the debounce trick use `Nat.land`/`Nat.xor`, which agree
with the C semantics on the value range [0, 255] involved.  Actuator calls
`lock(0)` / `lock(1)` are logged in an action trace; display drawing calls
have no effect on the shared state and are modelled by a redraw counter.
-/

namespace SmartLock

/-- The compiled-in reference passcode `u8 password[6] = {1,2,3,4,5,6}`. -/
def password : List Nat := [1, 2, 3, 4, 5, 6]

/-- Embedding of `string_chek(u8* string1, u8* string2, u8 len)`:
`while(len--)` walks from index `len-1` down to 0, returning 0 at the first
mismatch and 1 if all positions matched.  Buffers are lists indexed with
default 0 (all call sites stay within bounds). -/
def string_chek (string1 string2 : List Nat) : Nat → Nat
  | 0 => 1
  | n + 1 =>
    if string1.getD n 0 = string2.getD n 0 then string_chek string1 string2 n
    else 0

/-- Actuator commands: `lock(0)` drives the servo to the unlock position,
`lock(1)` to the locked position. -/
inductive Act where
  | unlock : Act
  | lock : Act
  deriving DecidableEq, Repr

/-- The shared state block plus per-thread scalars of the two threads:
`key_temp`/`key_index` are the shared entry buffer and its count,
`key_index_old` is the LCD thread's last rendered count, `key_old` is the
key thread's previous raw scan code; `acts` logs actuator commands and
`redraws` counts LCD repaints of the entry area. -/
structure St where
  key_temp : List Nat
  key_index : Nat
  key_index_old : Nat
  key_old : Nat
  acts : List Act
  redraws : Nat
  deriving DecidableEq, Repr

/-- The edge-detection computation of the key thread:
`key_down = key_val & (key_val ^ key_old)`. -/
def keyDown (key_old key_val : Nat) : Nat :=
  key_val &&& (key_val ^^^ key_old)

/-- The raw `key_down` codes handled by the digit-1..9 cases of the switch:
`case 1,2,3, 5,6,7, 9,10,11`. -/
def digitCodes : List Nat := [1, 2, 3, 5, 6, 7, 9, 10, 11]

/-- The digit that the switch body stores for a code in `digitCodes`:
codes 1-3 map directly, 5-7 subtract 1, 9-11 subtract 2. -/
def digitOf (kd : Nat) : Nat :=
  if kd ≤ 3 then kd else if kd ≤ 7 then kd - 1 else kd - 2

/-- The clear loop `for(i=0;i<7;i++) key_temp[i] = 0;` unrolled over the
seven slots of the buffer. -/
def clearBuf (l : List Nat) : List Nat :=
  ((((((l.set 0 0).set 1 0).set 2 0).set 3 0).set 4 0).set 5 0).set 6 0

/-- One iteration of the key-process thread loop
(`key_process_thread_entry`): read a raw code, edge-detect, update
`key_old`, and dispatch on `key_down` (digit append when `key_index < 6`,
clear, or confirm with verification and actuator commands). -/
def key_process_step (s : St) (key_val : Nat) : St :=
  let kd := keyDown s.key_old key_val
  let s1 := { s with key_old := key_val }
  if kd ∈ digitCodes then
    if s1.key_index < 6 then
      { s1 with key_temp := s1.key_temp.set s1.key_index (digitOf kd),
                key_index := s1.key_index + 1 }
    else s1
  else if kd = 14 then
    if s1.key_index < 6 then
      { s1 with key_temp := s1.key_temp.set s1.key_index 0,
                key_index := s1.key_index + 1 }
    else s1
  else if kd = 13 then
    { s1 with key_index := 0, key_temp := clearBuf s1.key_temp }
  else if kd = 15 then
    { s1 with key_index := 0,
              key_temp := clearBuf s1.key_temp,
              acts := s1.acts ++
                (if string_chek s1.key_temp password 6 = 1 then
                  [Act.unlock, Act.lock]
                 else [Act.lock]) }
  else s1

/-- One iteration of the LCD refresh thread loop
(`lcd_refresh_thread_entry`): when `key_index != key_index_old`, repaint
the entry area (counted in `redraws`), clamp `key_index` to 6 if it exceeds
6 (the code writes the shared variable itself), draw the digits, and record
`key_index_old = key_index`. -/
def lcd_refresh_step (s : St) : St :=
  if s.key_index ≠ s.key_index_old then
    let ki := if s.key_index > 6 then 6 else s.key_index
    { s with key_index := ki, key_index_old := ki, redraws := s.redraws + 1 }
  else s

/-- The startup state: buffer zeroed, `key_index = 0`, `key_index_old`
initialized to the sentinel 255, previous raw code 0, no actuator commands
issued yet. -/
def init : St :=
  { key_temp := List.replicate 7 0, key_index := 0, key_index_old := 255,
    key_old := 0, acts := [], redraws := 0 }

/-- An interleaving event: a key-thread scan tick with the raw code it
reads, or an LCD-thread refresh tick. -/
inductive Ev where
  | scan : Nat → Ev
  | tick : Ev
  deriving DecidableEq, Repr

/-- One step of the interleaved two-thread system. -/
def step (s : St) : Ev → St
  | Ev.scan v => key_process_step s v
  | Ev.tick => lcd_refresh_step s

/-- The state reached from startup after a finite interleaving of scan and
refresh ticks. -/
def run (evs : List Ev) : St := evs.foldl step init

/-- The producer invariant: the entry count never exceeds 6 and the buffer
keeps its seven slots. -/
def Inv (s : St) : Prop := s.key_index ≤ 6 ∧ s.key_temp.length = 7

/-- End-to-end scenario A as raw scan codes: digits 1..6 are raw codes
1, 2, 3, 5, 6, 7, each followed by a release (code 0), then confirm
(code 15). -/
def scenarioA : List Ev :=
  [Ev.scan 1, Ev.scan 0, Ev.scan 2, Ev.scan 0, Ev.scan 3, Ev.scan 0,
   Ev.scan 5, Ev.scan 0, Ev.scan 6, Ev.scan 0, Ev.scan 7, Ev.scan 0,
   Ev.scan 15]

/-- A concrete state with a full (correct) entry: six digits entered. -/
def full6 : St :=
  { key_temp := [1, 2, 3, 4, 5, 6, 0], key_index := 6, key_index_old := 255,
    key_old := 0, acts := [], redraws := 0 }

/-- A concrete state with a partial entry of three digits. -/
def stMid : St :=
  { key_temp := [1, 2, 3, 0, 0, 0, 0], key_index := 3, key_index_old := 2,
    key_old := 0, acts := [], redraws := 0 }

/-- A concrete state whose shared count reads 7, above the valid maximum
(as after a torn read). -/
def s7 : St :=
  { key_temp := [1, 2, 3, 4, 5, 6, 0], key_index := 7, key_index_old := 0,
    key_old := 0, acts := [], redraws := 0 }

/-- A concrete state whose count equals the last rendered count. -/
def stEq : St :=
  { key_temp := [1, 2, 3, 0, 0, 0, 0], key_index := 3, key_index_old := 3,
    key_old := 0, acts := [], redraws := 0 }

/-! ### Basic facts about `string_chek` -/

theorem string_chek_one_iff (e r : List Nat) (n : Nat) :
    string_chek e r n = 1 ↔ ∀ i, i < n → e.getD i 0 = r.getD i 0 := by
  induction n with
  | zero => simp [string_chek]
  | succ n ih =>
    rw [string_chek]
    by_cases h : e.getD n 0 = r.getD n 0
    · rw [if_pos h, ih]
      constructor
      · intro hall i hi
        rcases Nat.lt_succ_iff_lt_or_eq.mp hi with hlt | hEq
        · exact hall i hlt
        · exact hEq ▸ h
      · exact fun hall i hi => hall i (Nat.lt_succ_of_lt hi)
    · rw [if_neg h]
      constructor
      · intro h0; exact absurd h0 (by decide)
      · intro hall; exact absurd (hall n (Nat.lt_succ_self n)) h

theorem string_chek_zero_or_one (e r : List Nat) (n : Nat) :
    string_chek e r n = 0 ∨ string_chek e r n = 1 := by
  induction n with
  | zero => exact Or.inr rfl
  | succ n ih =>
    rw [string_chek]
    by_cases h : e.getD n 0 = r.getD n 0
    · rw [if_pos h]; exact ih
    · rw [if_neg h]; exact Or.inl rfl

/-- C1: `string_chek(entered, reference, n)` returns 1 iff the first `n`
positions of the two buffers agree element-wise, and returns 0 exactly when
some position below `n` mismatches (in particular position 0 or `n-1`). -/
theorem string_chek_correct (e r : List Nat) (n : Nat) :
    (string_chek e r n = 1 ↔ ∀ i, i < n → e.getD i 0 = r.getD i 0) ∧
    (string_chek e r n = 0 ↔ ∃ i, i < n ∧ e.getD i 0 ≠ r.getD i 0) := by
  refine ⟨string_chek_one_iff e r n, ?_, ?_⟩
  · intro h0
    by_contra hno
    push_neg at hno
    have h1 := (string_chek_one_iff e r n).mpr hno
    omega
  · rintro ⟨i, hi, hne⟩
    rcases string_chek_zero_or_one e r n with h0 | h1
    · exact h0
    · exact absurd ((string_chek_one_iff e r n).mp h1 i hi) hne

/-- Witness for C1: a mismatch at the last compared position (and one at
position 0) makes `string_chek` return 0, and a full match returns 1. -/
theorem string_chek_correct_w :
    string_chek [1, 2, 3, 4, 5, 6, 0] password 6 = 1 ∧
    string_chek [1, 2, 3, 4, 5, 9, 0] password 6 = 0 ∧
    string_chek [9, 2, 3, 4, 5, 6, 0] password 6 = 0 :=
  ⟨(string_chek_correct [1, 2, 3, 4, 5, 6, 0] password 6).1.mpr (by decide),
   (string_chek_correct [1, 2, 3, 4, 5, 9, 0] password 6).2.mpr
     ⟨5, by decide, by decide⟩,
   (string_chek_correct [9, 2, 3, 4, 5, 6, 0] password 6).2.mpr
     ⟨0, by decide, by decide⟩⟩

/-- C10: comparing zero elements vacuously succeeds: `string_chek` with
length 0 returns 1 for every pair of buffers. -/
theorem string_chek_len_zero (e r : List Nat) : string_chek e r 0 = 1 := rfl

/-! ### Structural lemmas about the two thread steps -/

theorem clearBuf_eq (l : List Nat) (h : l.length = 7) :
    clearBuf l = List.replicate 7 0 := by
  rcases l with _ | ⟨a, _ | ⟨b, _ | ⟨c, _ | ⟨d, _ | ⟨e, _ | ⟨f, _ | ⟨g, _ | ⟨x, t⟩⟩⟩⟩⟩⟩⟩⟩ <;>
    first
      | rfl
      | (exfalso; simp only [List.length_cons, List.length_nil] at h; omega)

theorem key_process_step_key_old (s : St) (v : Nat) :
    (key_process_step s v).key_old = v := by
  simp only [key_process_step]
  split_ifs <;> rfl

theorem key_process_step_index_cases (s : St) (v : Nat) :
    (key_process_step s v).key_index = s.key_index ∨
    ((key_process_step s v).key_index = s.key_index + 1 ∧ s.key_index < 6) ∨
    (key_process_step s v).key_index = 0 := by
  simp only [key_process_step]
  split_ifs with h1 h2 h3 h4 h5 h6 <;> simp_all

theorem key_process_step_length (s : St) (v : Nat) :
    (key_process_step s v).key_temp.length = s.key_temp.length := by
  simp only [key_process_step]
  split_ifs <;> simp [clearBuf, List.length_set]

theorem lcd_refresh_step_key_temp (s : St) :
    (lcd_refresh_step s).key_temp = s.key_temp := by
  simp only [lcd_refresh_step]
  split_ifs <;> rfl

theorem lcd_refresh_step_index_le (s : St) (h : s.key_index ≤ 6) :
    (lcd_refresh_step s).key_index ≤ 6 := by
  simp only [lcd_refresh_step]
  split_ifs <;> first | omega | exact h

theorem step_inv (s : St) (e : Ev) (h : Inv s) : Inv (step s e) := by
  cases e with
  | scan v =>
    show Inv (key_process_step s v)
    refine ⟨?_, ?_⟩
    · have hi := h.1
      rcases key_process_step_index_cases s v with hc | hc | hc <;> omega
    · rw [key_process_step_length]; exact h.2
  | tick =>
    show Inv (lcd_refresh_step s)
    refine ⟨lcd_refresh_step_index_le s h.1, ?_⟩
    rw [lcd_refresh_step_key_temp]; exact h.2

theorem run_inv (evs : List Ev) : Inv (run evs) := by
  suffices H : ∀ (l : List Ev) (s : St), Inv s → Inv (l.foldl step s) by
    exact H evs init ⟨by decide, by decide⟩
  intro l
  induction l with
  | nil => exact fun s h => h
  | cons e l ih => exact fun s h => ih (step s e) (step_inv s e h)

/-! ### Claim theorems -/

/-- C2 counterexample: the computation `current AND (current XOR previous)`
does not fire with value `current` on every no-key-or-different-key to
this-key transition: at previous = 1, current = 3 it fires with value 2
(not 3), and at previous = 3, current = 1 it does not fire at all even
though current is nonzero and differs from previous. -/
theorem keyDown_claim_cex :
    (keyDown 1 3 ≠ 0 ∧ keyDown 1 3 ≠ 3) ∧
    (keyDown 3 1 = 0 ∧ (1 : Nat) ≠ 0 ∧ (1 : Nat) ≠ 3) := by decide

/-- C2 (amended): for codes in [0, 16], when the previous code is 0 (the
no-key state) and the current code is nonzero, the edge computation fires
with value equal to the current code; no event fires while the same code is
held (current = previous) and no event fires on release (current = 0).
When previous and current are distinct nonzero codes with overlapping bit
patterns the computation may miss the transition or fire with a value
different from the current code. -/
theorem keyDown_edge (key_old key_val : Nat)
    (h1 : key_old ≤ 16) (h2 : key_val ≤ 16) :
    (key_old = 0 → key_val ≠ 0 →
      keyDown key_old key_val = key_val ∧ keyDown key_old key_val ≠ 0) ∧
    (key_val = key_old → keyDown key_old key_val = 0) ∧
    (key_val = 0 → keyDown key_old key_val = 0) := by
  refine ⟨?_, ?_, ?_⟩
  · rintro rfl hne
    unfold keyDown
    rw [Nat.xor_zero, Nat.and_self]
    exact ⟨rfl, hne⟩
  · rintro rfl
    unfold keyDown
    rw [Nat.xor_self, Nat.and_zero]
  · rintro rfl
    unfold keyDown
    rw [Nat.zero_and]

/-- Witness for C2 (amended) at previous = 0, current = 3; held code 5;
release from code 5. -/
theorem keyDown_edge_w :
    keyDown 0 3 = 3 ∧ keyDown 0 3 ≠ 0 ∧ keyDown 5 5 = 0 ∧ keyDown 5 0 = 0 :=
  ⟨((keyDown_edge 0 3 (by decide) (by decide)).1 rfl (by decide)).1,
   ((keyDown_edge 0 3 (by decide) (by decide)).1 rfl (by decide)).2,
   (keyDown_edge 5 5 (by decide) (by decide)).2.1 rfl,
   (keyDown_edge 5 0 (by decide) (by decide)).2.2 rfl⟩

/-- C3: in every state reachable by interleaving scan ticks and refresh
ticks from startup, `key_index` is at most 6; and a digit event (a
`key_down` code in the digit cases, including 14 for digit 0) arriving when
`key_index = 6` leaves both `key_index` and the entry buffer unchanged. -/
theorem key_index_bounded :
    (∀ evs : List Ev, (run evs).key_index ≤ 6) ∧
    (∀ (s : St) (v : Nat), s.key_index = 6 →
      (keyDown s.key_old v ∈ digitCodes ∨ keyDown s.key_old v = 14) →
      (key_process_step s v).key_index = s.key_index ∧
      (key_process_step s v).key_temp = s.key_temp) := by
  constructor
  · exact fun evs => (run_inv evs).1
  · intro s v h6 hd
    simp only [key_process_step]
    rcases hd with hd | hd
    · rw [if_pos hd, if_neg (by omega)]
      exact ⟨rfl, rfl⟩
    · rw [hd]
      rw [if_neg (by decide), if_pos rfl, if_neg (by omega)]
      exact ⟨rfl, rfl⟩

/-- Witness for C3: the empty run, and a digit press (raw code 1) and a
zero press (raw code 14) in the full state. -/
theorem key_index_bounded_w :
    (run []).key_index ≤ 6 ∧
    (key_process_step full6 1).key_index = full6.key_index ∧
    (key_process_step full6 14).key_temp = full6.key_temp :=
  ⟨key_index_bounded.1 [],
   (key_index_bounded.2 full6 1 rfl (Or.inl (by decide))).1,
   (key_index_bounded.2 full6 14 rfl (Or.inr (by decide))).2⟩

/-- C4: from any state with a seven-slot buffer, a Confirm event
(`key_down = 15`) resets `key_index` to 0 and zeroes all seven buffer
slots, for either verification outcome; and when verification fails
(`string_chek` returns 0) exactly one Lock command is appended to the
action trace, so a failed attempt ends Locked with an empty buffer. -/
theorem confirm_resets (s : St) (v : Nat)
    (hk : keyDown s.key_old v = 15) (hl : s.key_temp.length = 7) :
    (key_process_step s v).key_index = 0 ∧
    (key_process_step s v).key_temp = List.replicate 7 0 ∧
    (string_chek s.key_temp password 6 = 0 →
      (key_process_step s v).acts = s.acts ++ [Act.lock]) := by
  have hcb := clearBuf_eq s.key_temp hl
  simp only [key_process_step]
  rw [hk, if_neg (by decide), if_neg (by decide), if_neg (by decide),
    if_pos rfl]
  refine ⟨rfl, hcb, ?_⟩
  intro h0
  have hne : ¬ string_chek s.key_temp password 6 = 1 := by omega
  rw [if_neg hne]

/-- Witness for C4: confirming the partial entry [1,2,3] fails verification,
resets the count, zeroes the buffer, and issues a Lock command. -/
theorem confirm_resets_w :
    (key_process_step stMid 15).key_index = 0 ∧
    (key_process_step stMid 15).key_temp = List.replicate 7 0 ∧
    (key_process_step stMid 15).acts = stMid.acts ++ [Act.lock] :=
  ⟨(confirm_resets stMid 15 (by decide) (by decide)).1,
   (confirm_resets stMid 15 (by decide) (by decide)).2.1,
   (confirm_resets stMid 15 (by decide) (by decide)).2.2 (by decide)⟩

/-- C5: whenever a Confirm event passes verification, the handler appends
Unlock immediately followed by Lock to the action trace before the scan
loop resumes, and resets `key_index` to 0 — the trace never ends on
Unlock; concretely, scenario A (digits 1..6 then confirm from startup)
issues Unlock then Lock and ends with `key_index = 0`. -/
theorem confirm_unlock_then_lock :
    (∀ (s : St) (v : Nat), keyDown s.key_old v = 15 →
      string_chek s.key_temp password 6 = 1 →
      (key_process_step s v).acts = s.acts ++ [Act.unlock, Act.lock] ∧
      (key_process_step s v).key_index = 0) ∧
    ((run scenarioA).acts = [Act.unlock, Act.lock] ∧
     (run scenarioA).key_index = 0) := by
  constructor
  · intro s v hk h1
    simp only [key_process_step]
    rw [hk, if_neg (by decide), if_neg (by decide), if_neg (by decide),
      if_pos rfl]
    constructor
    · show s.acts ++ (if string_chek s.key_temp password 6 = 1 then
          [Act.unlock, Act.lock] else [Act.lock]) = s.acts ++ [Act.unlock, Act.lock]
      rw [if_pos h1]
    · rfl
  · exact ⟨by decide, by decide⟩

/-- Witness for C5: confirming the full correct entry [1,2,3,4,5,6]. -/
theorem confirm_unlock_then_lock_w :
    (key_process_step full6 15).acts = full6.acts ++ [Act.unlock, Act.lock] ∧
    (key_process_step full6 15).key_index = 0 :=
  confirm_unlock_then_lock.1 full6 15 (by decide) (by decide)

/-- C6: the previous-level register always holds the last raw code, and a
scan tick whose raw code equals the previous one leaves the state exactly
unchanged — so at most one event fires per contiguous run of an identical
code; concretely, seven consecutive raw codes 1 from startup record exactly
one digit. -/
theorem scan_no_repeat :
    (∀ (s : St) (v : Nat), (key_process_step s v).key_old = v) ∧
    (∀ (s : St) (v : Nat), s.key_old = v → key_process_step s v = s) ∧
    ((run (List.replicate 7 (Ev.scan 1))).key_index = 1 ∧
     (run (List.replicate 7 (Ev.scan 1))).key_temp = [1, 0, 0, 0, 0, 0, 0]) := by
  refine ⟨key_process_step_key_old, ?_, by decide, by decide⟩
  intro s v h
  subst h
  simp only [key_process_step, keyDown, Nat.xor_self, Nat.and_zero]
  rw [if_neg (by decide), if_neg (by decide), if_neg (by decide),
    if_neg (by decide)]

/-- Witness for C6: a held key (previous code already 1) changes nothing. -/
theorem scan_no_repeat_w :
    (key_process_step init 5).key_old = 5 ∧
    key_process_step (key_process_step init 1) 1 = key_process_step init 1 :=
  ⟨scan_no_repeat.1 init 5,
   scan_no_repeat.2.1 (key_process_step init 1) 1 (by decide)⟩

/-- C7 counterexample: at a state whose shared count reads 7 (above the
valid maximum, as after a torn read), one LCD refresh iteration writes the
shared `key_index`, clamping it to 6 — so the refresh step does not leave
`key_index` unchanged in every state. -/
theorem lcd_not_readonly_cex :
    s7.key_index = 7 ∧ (lcd_refresh_step s7).key_index = 6 ∧
    (lcd_refresh_step s7).key_index ≠ s7.key_index := by decide

/-- C7 (amended): one LCD refresh iteration never writes the entry buffer,
and leaves `key_index` unchanged in every state satisfying the producer
invariant `key_index ≤ 6` — in particular in every reachable state; only
for an out-of-range count (torn read) does the defensive clamp write
`key_index` back to 6. -/
theorem lcd_frame :
    (∀ s : St, s.key_index ≤ 6 →
      (lcd_refresh_step s).key_index = s.key_index ∧
      (lcd_refresh_step s).key_temp = s.key_temp) ∧
    (∀ evs : List Ev,
      (lcd_refresh_step (run evs)).key_index = (run evs).key_index ∧
      (lcd_refresh_step (run evs)).key_temp = (run evs).key_temp) := by
  have P1 : ∀ s : St, s.key_index ≤ 6 →
      (lcd_refresh_step s).key_index = s.key_index ∧
      (lcd_refresh_step s).key_temp = s.key_temp := by
    intro s h
    simp only [lcd_refresh_step]
    split_ifs with hne h6
    · omega
    · exact ⟨rfl, rfl⟩
    · exact ⟨rfl, rfl⟩
  exact ⟨P1, fun evs => P1 (run evs) (run_inv evs).1⟩

/-- Witness for C7 (amended): the full six-digit state and the startup
state are untouched by a refresh iteration. -/
theorem lcd_frame_w :
    (lcd_refresh_step full6).key_index = full6.key_index ∧
    (lcd_refresh_step full6).key_temp = full6.key_temp ∧
    (lcd_refresh_step (run [])).key_index = (run []).key_index :=
  ⟨(lcd_frame.1 full6 (by decide)).1,
   (lcd_frame.1 full6 (by decide)).2,
   (lcd_frame.2 []).1⟩

/-- C8: from any state with a seven-slot buffer, a Clear event
(`key_down = 13`) sets `key_index` to 0 and zeroes all seven buffer
slots. -/
theorem clear_resets (s : St) (v : Nat)
    (hk : keyDown s.key_old v = 13) (hl : s.key_temp.length = 7) :
    (key_process_step s v).key_index = 0 ∧
    (key_process_step s v).key_temp = List.replicate 7 0 := by
  have hcb := clearBuf_eq s.key_temp hl
  simp only [key_process_step]
  rw [hk, if_neg (by decide), if_neg (by decide), if_pos rfl]
  exact ⟨rfl, hcb⟩

/-- Witness for C8: clearing the partial entry [1,2,3]. -/
theorem clear_resets_w :
    (key_process_step stMid 13).key_index = 0 ∧
    (key_process_step stMid 13).key_temp = List.replicate 7 0 :=
  clear_resets stMid 13 (by decide) (by decide)

/-- C9: one refresh iteration repaints exactly when
`key_index ≠ key_index_old` and is the identity otherwise; after a repaint,
`key_index_old` equals the (clamped) `key_index` it rendered; the sentinel
255 that initializes `key_index_old` differs from every valid count in
[0, 6], so the first refresh iteration from startup draws. -/
theorem lcd_refresh_change_detect :
    (∀ s : St, (lcd_refresh_step s).redraws =
        s.redraws + (if s.key_index ≠ s.key_index_old then 1 else 0)) ∧
    (∀ s : St, s.key_index ≠ s.key_index_old →
        (lcd_refresh_step s).key_index_old = (lcd_refresh_step s).key_index) ∧
    (∀ s : St, s.key_index = s.key_index_old → lcd_refresh_step s = s) ∧
    (init.key_index_old = 255 ∧ (∀ k : Nat, k ≤ 6 → k ≠ 255) ∧
      (lcd_refresh_step init).redraws = init.redraws + 1) := by
  refine ⟨?_, ?_, ?_, rfl, ?_, by decide⟩
  · intro s
    simp only [lcd_refresh_step]
    split_ifs <;> rfl
  · intro s hne
    simp only [lcd_refresh_step]
    rw [if_pos hne]
  · intro s heq
    simp only [lcd_refresh_step]
    rw [if_neg (not_not_intro heq)]
  · intro k hk
    omega

/-- Witness for C9: the first refresh from startup draws (0 ≠ 255), a state
with matching counts is untouched, and 3 is a valid count distinct from the
sentinel. -/
theorem lcd_refresh_change_detect_w :
    (lcd_refresh_step init).redraws =
      init.redraws + (if init.key_index ≠ init.key_index_old then 1 else 0) ∧
    (lcd_refresh_step init).key_index_old = (lcd_refresh_step init).key_index ∧
    lcd_refresh_step stEq = stEq ∧ (3 : Nat) ≠ 255 :=
  ⟨lcd_refresh_change_detect.1 init,
   lcd_refresh_change_detect.2.1 init (by decide),
   lcd_refresh_change_detect.2.2.1 stEq rfl,
   lcd_refresh_change_detect.2.2.2.2.1 3 (by decide)⟩

end SmartLock
